import Mathlib

/-
  Verification development for the WDM-CFA-SSP batch automation controller
  (`test.py`): a DOSBox/CFA keystroke automation script.  The definitions
  below are a shallow embedding of `test.py`: side-effecting calls
  (subprocess launch, key presses, sleeps, screenshots, prints) become
  events in an explicit trace, and the environment (window liveness,
  captured pixel frames, save failures) is an explicit parameter.
-/

/-- A pixel frame captured from the window by `ImageGrab.grab`, as a list of
pixel values (the window geometry is fixed during one `take_screenshot`
call, so both frames of a comparison have the same length). -/
abbrev Frame := List Nat

/-- `ImageChops.difference`: pixel-wise absolute difference of two frames. -/
def ImageChops_difference (a b : Frame) : Frame :=
  List.zipWith (fun x y => max x y - min x y) a b

/-- `difference.getbbox()` is `None` exactly when every pixel of the
difference image is zero (no changed pixel). -/
def getbbox_isNone (f : Frame) : Bool := f.all (fun p => p == 0)

/-- Observable events of the script, in program order.  A `key` event is one
key press or typed character together with the delay (in milliseconds) that
its emitter sleeps immediately after it (`send_keys`'s `interval`,
`pyautogui.write`'s `interval`, and `0` for a bare `pyautogui.press`). -/
inductive Event where
  | launch : Event
  | sleepMs : Nat → Event
  | key : String → Nat → Event
  | saved : String → Frame → Event
  | printed : String → Event
  | hotkey : String → String → Event
  | mkdir : String → Event
  deriving DecidableEq

/-- Python exceptions that the modelled code can raise. -/
inductive PyExc where
  | indexError
  | nameError
  | captureError
  | saveError
  | fileNotFound
  deriving DecidableEq

/-- Environment of one `take_screenshot` call: whether
`pyautogui.getWindowsWithTitle` finds the window, whether `ImageGrab.grab`
raises, whether `Image.save` raises, and the frame captured by the `n`-th
grab (`frames 0` is the initial pre-loop capture). -/
structure ShotEnv where
  windowPresent : Bool
  captureFails : Bool
  saveFails : Bool
  frames : Nat → Frame

/-- Result of the stability polling loop in `take_screenshot`:
`stable i` means the loop returned after observing that capture `i` equals
capture `i - 1`; `timedOut k` means the `while` condition failed with the
last grab being capture `k`. -/
inductive ShotResult where
  | stable : Nat → ShotResult
  | timedOut : Nat → ShotResult
  deriving DecidableEq

/-- The `while time.time() - start_time < timeout` polling loop of
`take_screenshot`.  Each iteration sleeps 1 second, so after `k` iterations
the elapsed time is `k` seconds and the loop body runs exactly while
`k < timeout`; `fuel` is the number of iterations still allowed
(`timeout - k`), and `k` is the index of `previous_screenshot`. -/
def waitLoop (frames : Nat → Frame) : Nat → Nat → ShotResult
  | 0, k => .timedOut k
  | fuel + 1, k =>
    if getbbox_isNone (ImageChops_difference (frames k) (frames (k + 1)))
    then .stable (k + 1)
    else waitLoop frames fuel (k + 1)

/-- Two consecutive captures `j` and `j+1` are pixel-identical. -/
def stableAt (frames : Nat → Frame) (j : Nat) : Bool :=
  getbbox_isNone (ImageChops_difference (frames j) (frames (j + 1)))

/-- The `try`-block of `take_screenshot`: find the window (`IndexError` if
absent), grab the initial frame, run the polling loop, and save the
resulting frame.  If the loop times out with `timeout = 0`, the Python
variable `current_screenshot` was never assigned and the final save raises
a `NameError`. -/
def takeScreenshotBody (env : ShotEnv) (filename : String) (timeout : Nat) :
    Except PyExc (List Event) :=
  if !env.windowPresent then .error .indexError
  else if env.captureFails then .error .captureError
  else match waitLoop env.frames timeout 0 with
    | .stable i =>
      if env.saveFails then .error .saveError
      else .ok [.saved filename (env.frames i),
                .printed ("Screenshot saved: " ++ filename)]
    | .timedOut k =>
      if timeout == 0 then .error .nameError
      else if env.saveFails then .error .saveError
      else .ok [.saved filename (env.frames k),
                .printed ("Screenshot saved (timeout reached): " ++ filename)]

/-- `take_screenshot(filename, window_title="DOSBox", timeout=30)`: the body
wrapped in the `try/except IndexError/except Exception` handlers, which
turn every exception into a printed message and a normal return. -/
def take_screenshot (env : ShotEnv) (filename : String) (timeout : Nat) :
    List Event :=
  match takeScreenshotBody env filename timeout with
  | .ok evs => evs
  | .error .indexError =>
    [.printed "Window with title 'DOSBox' not found. Ensure the CFA window is open."]
  | .error _ => [.printed "Error capturing screenshot"]

/-- `send_keys(*keys, interval=0.1)`: press each key, sleeping `interval`
(here in milliseconds) after each press. -/
def send_keys (keys : List String) (intervalMs : Nat) : List Event :=
  keys.flatMap (fun k => [Event.key k intervalMs])

/-- `pyautogui.write(text, interval=...)`: type each character of `text`,
sleeping `interval` (in milliseconds, `0` for the library default) after
each character. -/
def pyautogui_write (text : String) (intervalMs : Nat) : List Event :=
  text.data.flatMap (fun c => [Event.key (String.singleton c) intervalMs])

/-- A bare `pyautogui.press(key)` call (no sleep of its own). -/
def pyautogui_press (k : String) : List Event := [Event.key k 0]

/-- The artifact filename f-string `f"{seq}_{prn_file}_{stage}.png"`. -/
def artifactName (seq record stage : String) : String :=
  seq ++ "_" ++ record ++ "_" ++ stage ++ ".png"

/-- Environment of one `process_prn_file` call: whether the focus lookup
finds the DOSBox window, the result of the `n`-th `check_dosbox_window`
call, and the screenshot environment of each `take_screenshot` call site
(indexed 0–5 in the order `01_LP3`, `02_LP3_GRAPH`, `03_WAKEBY`,
`04_WAKEBY_GRAPH`, `05_GEV`, `06_GEV_GRAPH`). -/
structure Env where
  focusWindowPresent : Bool
  livenessCheck : Nat → Bool
  shotEnv : Nat → ShotEnv

/-- Outcome of one `process_prn_file` call: normal return carrying the
returned `resolution_prompted` value, `sys.exit()`, or an uncaught raised
exception. -/
inductive Outcome where
  | done : Bool → Outcome
  | exited : Outcome
  | raised : Outcome
  deriving DecidableEq

/-- Lines 124–126: type the mount command, settle, press enter. -/
def mountSegment : List Event :=
  pyautogui_write "mount c C:/Temp" 10 ++ [Event.sleepMs 500] ++
  pyautogui_press "enter"

/-- Lines 133–136: switch to the C: drive and type `CFA`. -/
def driveSegment : List Event :=
  pyautogui_write "c:" 10 ++ [Event.sleepMs 500] ++ pyautogui_press "enter" ++
  pyautogui_write "CFA" 10

/-- Lines 139–147: dismiss the splash prompts and select main-menu items
1 and 6 (bare presses with `time.sleep(0.5)` settles). -/
def menuEntrySegment : List Event :=
  send_keys ["enter", "enter", "enter"] 100 ++
  pyautogui_press "1" ++ pyautogui_press "enter" ++ [Event.sleepMs 500] ++
  pyautogui_press "6" ++ pyautogui_press "enter" ++ [Event.sleepMs 500]

/-- Lines 150–165: enter the `.prn` file name and drive (library-default
zero interval), return to the main menu, and navigate to the frequency
analysis screen. -/
def fileEntrySegment (prn_file : String) : List Event :=
  pyautogui_write prn_file 0 ++ send_keys ["enter"] 100 ++
  pyautogui_write "C:" 0 ++ send_keys ["enter"] 100 ++
  [Event.sleepMs 500] ++ send_keys ["enter"] 100 ++
  send_keys ["7", "enter", "enter", "enter"] 100 ++
  send_keys ["3", "enter", "enter", "enter", "enter"] 100

/-- Lines 167–201: the rest of the walk after the `01_LP3` screenshot —
the one-time resolution prompt (lines 170–177, guarded by
`resolution_prompted`), then the WAKEBY, GEV and return-to-main steps. -/
def walkTail (env : Env) (prn_file : String) (resolution_prompted : Bool) :
    List Event :=
  send_keys ["enter", "enter"] 100 ++
  (if !resolution_prompted then
    pyautogui_write "97,97" 0 ++
    send_keys ["enter", "enter", "enter"] 100 ++
    take_screenshot (env.shotEnv 1) (artifactName "02" prn_file "LP3_GRAPH") 30 ++
    send_keys ["enter"] 1000 ++ send_keys ["enter", "enter"] 100
  else []) ++
  send_keys ["4", "enter", "enter", "enter", "enter"] 100 ++
  take_screenshot (env.shotEnv 2) (artifactName "03" prn_file "WAKEBY") 30 ++
  send_keys ["enter", "enter", "enter", "enter"] 100 ++
  take_screenshot (env.shotEnv 3) (artifactName "04" prn_file "WAKEBY_GRAPH") 30 ++
  send_keys ["enter"] 1000 ++ send_keys ["enter", "enter"] 100 ++
  send_keys ["1", "enter", "enter", "enter", "enter"] 100 ++
  take_screenshot (env.shotEnv 4) (artifactName "05" prn_file "GEV") 30 ++
  send_keys ["enter", "enter", "enter", "enter"] 100 ++
  take_screenshot (env.shotEnv 5) (artifactName "06" prn_file "GEV_GRAPH") 30 ++
  send_keys ["enter"] 1000 ++ send_keys ["enter", "enter"] 100 ++
  send_keys ["1"] 100 ++ [Event.hotkey "alt" "f4"]

/-- `process_prn_file(prn_file, resolution_prompted=False)`: launch DOSBox,
focus its window (raising if absent), run the two liveness checks (each
failing check prints and calls `sys.exit()`), then replay the menu walk.
The local `resolution_prompted` is set to `True` inside the one-time-prompt
branch, so a completed walk always returns `True` (it was either already
`True`, or the branch just set it). -/
def process_prn_file (env : Env) (prn_file : String)
    (resolution_prompted : Bool) : List Event × Outcome :=
  if !env.focusWindowPresent then
    ([Event.launch, Event.sleepMs 2000], Outcome.raised)
  else if !(env.livenessCheck 0) then
    ([Event.launch, Event.sleepMs 2000, Event.sleepMs 500,
      Event.printed "DOSBox window closed. Exiting script."], Outcome.exited)
  else if !(env.livenessCheck 1) then
    ([Event.launch, Event.sleepMs 2000, Event.sleepMs 500] ++ mountSegment ++
     [Event.printed "DOSBox window closed. Exiting script."], Outcome.exited)
  else
    ([Event.launch, Event.sleepMs 2000, Event.sleepMs 500] ++ mountSegment ++
     driveSegment ++ menuEntrySegment ++ fileEntrySegment prn_file ++
     take_screenshot (env.shotEnv 0) (artifactName "01" prn_file "LP3") 30 ++
     walkTail env prn_file resolution_prompted,
     Outcome.done true)

/-- One record of the batch loop in `main`: the file name, the
`resolution_prompted` value passed in, the events of its
`process_prn_file` call, and that call's outcome. -/
structure RecordRun where
  file : String
  flagIn : Bool
  events : List Event
  outcome : Outcome
  deriving DecidableEq

/-- The `for prn_file in prn_files` loop of `main`, threading
`resolution_prompted` through successive `process_prn_file` calls; `idx`
numbers the records so each gets its own environment.  A `sys.exit()` or an
uncaught exception in `process_prn_file` propagates out of `main`, so the
loop stops and later records are never processed. -/
def runBatchAux (env : Nat → Env) : List String → Bool → Nat → List RecordRun
  | [], _, _ => []
  | f :: rest, rp, idx =>
    match process_prn_file (env idx) f rp with
    | (evs, Outcome.done rpNew) =>
      ⟨f, rp, evs, Outcome.done rpNew⟩ :: runBatchAux env rest rpNew (idx + 1)
    | (evs, Outcome.exited) => [⟨f, rp, evs, Outcome.exited⟩]
    | (evs, Outcome.raised) => [⟨f, rp, evs, Outcome.raised⟩]

/-- The events of one record in `main`'s loop, with `main`'s progress
prints around the `process_prn_file` events (the "Finished" print is only
reached when the call returns normally). -/
def recordTrace (r : RecordRun) : List Event :=
  Event.printed ("Processing " ++ r.file ++ "...") :: r.events ++
  (match r.outcome with
   | Outcome.done _ => [Event.printed ("Finished processing " ++ r.file ++ ".")]
   | _ => [])

/-- The full event trace of the batch. -/
def batchTrace (runs : List RecordRun) : List Event :=
  runs.flatMap recordTrace

/-- `prn_files = [f for f in os.listdir(prn_files_dir) if f.endswith(".prn")]`. -/
def discoverRecords (listing : List String) : List String :=
  listing.filter (fun f => f.endsWith ".prn")

/-- `main()`: discover the records and run the batch with
`resolution_prompted = False`. -/
def main_run (env : Nat → Env) (listing : List String) : List RecordRun :=
  runBatchAux env (discoverRecords listing) false 0

/-- The configured screenshot directory (line 13). -/
def screenshot_dir : String := "C:\\Temp"

/-- Module-level startup code (lines 16–21): raise `FileNotFoundError` if
the DOSBox executable is missing, else create the screenshot directory when
it does not exist.  `screenshot_dir` is used nowhere else. -/
def startup (dosboxExists screenshotDirExists : Bool) :
    Except PyExc (List Event) :=
  if !dosboxExists then .error .fileNotFound
  else .ok (if !screenshotDirExists then [Event.mkdir screenshot_dir] else [])

/-- The filenames of the `saved` events of a trace, in order. -/
def savedNames (evs : List Event) : List String :=
  evs.filterMap (fun e => match e with
    | Event.saved fn _ => some fn
    | _ => none)

/-- The key/character emissions of a trace with their after-delays. -/
def keyEvents (evs : List Event) : List (String × Nat) :=
  evs.filterMap (fun e => match e with
    | Event.key k d => some (k, d)
    | _ => none)

/-- How many times key `k` is emitted in a trace. -/
def countKey (k : String) (evs : List Event) : Nat :=
  (keyEvents evs).countP (fun p => p.1 == k)

/-- A trace contains two immediately adjacent key emissions with a zero
delay between them. -/
def hasZeroGapKeys : List Event → Bool
  | Event.key _ 0 :: Event.key _ _ :: _ => true
  | _ :: rest => hasZeroGapKeys rest
  | [] => false

/-- A screenshot environment in which nothing goes wrong. -/
def goodShot (s : ShotEnv) : Prop :=
  s.windowPresent = true ∧ s.captureFails = false ∧ s.saveFails = false

/-- A record environment in which the window stays alive and every
screenshot succeeds. -/
def goodEnv (e : Env) : Prop :=
  e.focusWindowPresent = true ∧ (∀ n, e.livenessCheck n = true) ∧
  ∀ n, goodShot (e.shotEnv n)

/-- The artifact filenames one completed record produces, in order: the
`02_LP3_GRAPH` capture happens only when `resolution_prompted` is false. -/
def recordArtifacts (f : String) (rp : Bool) : List String :=
  artifactName "01" f "LP3" ::
  (if rp then [] else [artifactName "02" f "LP3_GRAPH"]) ++
  [artifactName "03" f "WAKEBY", artifactName "04" f "WAKEBY_GRAPH",
   artifactName "05" f "GEV", artifactName "06" f "GEV_GRAPH"]

/-- The artifact filenames of a whole successful batch: after the first
completed record the flag is `true` for all later records. -/
def batchArtifacts : List String → Bool → List String
  | [], _ => []
  | f :: rest, rp => recordArtifacts f rp ++ batchArtifacts rest true

/-- A concrete all-good screenshot environment (all captures identical, so
the very first comparison is stable). -/
def cShot : ShotEnv := ⟨true, false, false, fun _ => []⟩

/-- A concrete all-good record environment. -/
def cEnv : Env := ⟨true, fun _ => true, fun _ => cShot⟩


theorem waitLoop_stable_le (fr : Nat → Frame) :
    ∀ fuel k i, waitLoop fr fuel k = ShotResult.stable i → i ≤ k + fuel := by
  intro fuel
  induction fuel with
  | zero => intro k i h; simp [waitLoop] at h
  | succ n ih =>
    intro k i h
    rw [waitLoop] at h
    by_cases hs : getbbox_isNone (ImageChops_difference (fr k) (fr (k + 1))) = true
    · rw [if_pos hs] at h
      cases h
      omega
    · rw [if_neg hs] at h
      have := ih (k + 1) i h
      omega

theorem waitLoop_timedOut_eq (fr : Nat → Frame) :
    ∀ fuel k j, waitLoop fr fuel k = ShotResult.timedOut j → j = k + fuel := by
  intro fuel
  induction fuel with
  | zero => intro k j h; rw [waitLoop] at h; cases h; omega
  | succ n ih =>
    intro k j h
    rw [waitLoop] at h
    by_cases hs : getbbox_isNone (ImageChops_difference (fr k) (fr (k + 1))) = true
    · rw [if_pos hs] at h; cases h
    · rw [if_neg hs] at h
      have := ih (k + 1) j h
      omega

theorem waitLoop_found (fr : Nat → Frame) :
    ∀ j fuel k, j < fuel → stableAt fr (k + j) = true →
      (∀ m, m < j → stableAt fr (k + m) = false) →
      waitLoop fr fuel k = ShotResult.stable (k + j + 1) := by
  intro j
  induction j with
  | zero =>
    intro fuel k hlt hst _
    obtain ⟨n, rfl⟩ : ∃ n, fuel = n + 1 := ⟨fuel - 1, by omega⟩
    rw [show k + 0 = k from rfl] at hst
    rw [stableAt] at hst
    rw [waitLoop, if_pos hst]
  | succ m ih =>
    intro fuel k hlt hst hpre
    obtain ⟨n, rfl⟩ : ∃ n, fuel = n + 1 := ⟨fuel - 1, by omega⟩
    have h0 : stableAt fr (k + 0) = false := hpre 0 (by omega)
    rw [waitLoop]
    rw [show k + 0 = k from rfl] at h0
    rw [stableAt] at h0
    rw [if_neg (by simp [h0])]
    have := ih n (k + 1) (by omega) (by rw [show k + 1 + m = k + (m + 1) by omega]; exact hst)
      (fun m' hm' => by rw [show k + 1 + m' = k + (m' + 1) by omega]; exact hpre (m' + 1) (by omega))
    rw [this]
    congr 1
    omega

theorem waitLoop_none (fr : Nat → Frame) :
    ∀ fuel k, (∀ j, j < fuel → stableAt fr (k + j) = false) →
      waitLoop fr fuel k = ShotResult.timedOut (k + fuel) := by
  intro fuel
  induction fuel with
  | zero => intro k _; rw [waitLoop]; rfl
  | succ n ih =>
    intro k h
    have h0 : stableAt fr k = false := by have := h 0 (by omega); simpa using this
    rw [waitLoop, stableAt] at *
    rw [if_neg (by simp [h0])]
    have := ih (k + 1) (fun j hj => by
      rw [show k + 1 + j = k + (j + 1) by omega]; exact h (j + 1) (by omega))
    rw [this]
    congr 1
    omega

theorem takeScreenshotBody_shape (s : ShotEnv) (fn : String) (t : Nat)
    (evs : List Event) (h : takeScreenshotBody s fn t = Except.ok evs) :
    ∃ fr msg, evs = [Event.saved fn fr, Event.printed msg] := by
  rw [takeScreenshotBody] at h
  split at h
  · cases h
  · split at h
    · cases h
    · split at h
      · split at h
        · cases h
        · cases h
          exact ⟨_, _, rfl⟩
      · split at h
        · cases h
        · split at h
          · cases h
          · cases h
            exact ⟨_, _, rfl⟩

theorem take_screenshot_cases (s : ShotEnv) (fn : String) (t : Nat) :
    (∃ evs, takeScreenshotBody s fn t = Except.ok evs ∧
      take_screenshot s fn t = evs) ∨
    (∃ e msg, takeScreenshotBody s fn t = Except.error e ∧
      take_screenshot s fn t = [Event.printed msg]) := by
  cases hb : takeScreenshotBody s fn t with
  | ok evs => exact Or.inl ⟨evs, rfl, by simp [take_screenshot, hb]⟩
  | error e =>
    refine Or.inr ⟨e, ?_⟩
    cases e
    case indexError =>
      exact ⟨"Window with title 'DOSBox' not found. Ensure the CFA window is open.",
        rfl, by simp [take_screenshot, hb]⟩
    case nameError => exact ⟨"Error capturing screenshot", rfl, by simp [take_screenshot, hb]⟩
    case captureError => exact ⟨"Error capturing screenshot", rfl, by simp [take_screenshot, hb]⟩
    case saveError => exact ⟨"Error capturing screenshot", rfl, by simp [take_screenshot, hb]⟩
    case fileNotFound => exact ⟨"Error capturing screenshot", rfl, by simp [take_screenshot, hb]⟩

theorem keyEvents_take_screenshot (s : ShotEnv) (fn : String) (t : Nat) :
    keyEvents (take_screenshot s fn t) = [] := by
  rcases take_screenshot_cases s fn t with ⟨evs, hb, he⟩ | ⟨e, msg, hb, he⟩
  · obtain ⟨fr, msg, rfl⟩ := takeScreenshotBody_shape s fn t evs hb
    rw [he]; rfl
  · rw [he]; rfl

theorem take_screenshot_good_shape (s : ShotEnv) (fn : String) (t : Nat)
    (hg : goodShot s) (ht : 0 < t) :
    ∃ fr msg, take_screenshot s fn t = [Event.saved fn fr, Event.printed msg] := by
  obtain ⟨hw, hc, hs⟩ := hg
  have ht' : (t == 0) = false := by simp; omega
  cases hwl : waitLoop s.frames t 0 with
  | stable i =>
    exact ⟨s.frames i, "Screenshot saved: " ++ fn, by
      simp [take_screenshot, takeScreenshotBody, hw, hc, hs, hwl]⟩
  | timedOut k =>
    exact ⟨s.frames k, "Screenshot saved (timeout reached): " ++ fn, by
      simp [take_screenshot, takeScreenshotBody, hw, hc, hs, hwl, ht']⟩

theorem savedNames_take_screenshot_good (s : ShotEnv) (fn : String) (t : Nat)
    (hg : goodShot s) (ht : 0 < t) :
    savedNames (take_screenshot s fn t) = [fn] := by
  obtain ⟨fr, msg, he⟩ := take_screenshot_good_shape s fn t hg ht
  rw [he]; rfl

theorem take_screenshot_noWindow (s : ShotEnv) (fn : String) (t : Nat)
    (hw : s.windowPresent = false) :
    take_screenshot s fn t =
      [Event.printed "Window with title 'DOSBox' not found. Ensure the CFA window is open."] := by
  rw [take_screenshot, takeScreenshotBody, hw]
  rfl

theorem take_screenshot_stable_eq (s : ShotEnv) (fn : String) (timeout k0 : Nat)
    (hg : goodShot s) (hk : k0 < timeout) (hst : stableAt s.frames k0 = true)
    (hpre : ∀ j, j < k0 → stableAt s.frames j = false) :
    take_screenshot s fn timeout =
      [Event.saved fn (s.frames (k0 + 1)),
       Event.printed ("Screenshot saved: " ++ fn)] := by
  obtain ⟨hw, hc, hs⟩ := hg
  have hloop := waitLoop_found s.frames k0 timeout 0 hk (by simpa using hst)
    (fun m hm => by simpa using hpre m hm)
  rw [show (0 : Nat) + k0 + 1 = k0 + 1 by omega] at hloop
  simp [take_screenshot, takeScreenshotBody, hw, hc, hs, hloop]

theorem take_screenshot_timeout_eq (s : ShotEnv) (fn : String) (timeout : Nat)
    (hg : goodShot s) (ht : 0 < timeout)
    (hnone : ∀ j, j < timeout → stableAt s.frames j = false) :
    take_screenshot s fn timeout =
      [Event.saved fn (s.frames timeout),
       Event.printed ("Screenshot saved (timeout reached): " ++ fn)] := by
  obtain ⟨hw, hc, hs⟩ := hg
  have hloop := waitLoop_none s.frames timeout 0 (fun j hj => by simpa using hnone j hj)
  rw [Nat.zero_add] at hloop
  have ht' : (timeout == 0) = false := by simp; omega
  simp [take_screenshot, takeScreenshotBody, hw, hc, hs, hloop, ht']

theorem process_done_of_live (e : Env) (f : String) (rp : Bool)
    (hf : e.focusWindowPresent = true) (hl : ∀ n, e.livenessCheck n = true) :
    (process_prn_file e f rp).2 = Outcome.done true := by
  simp [process_prn_file, hf, hl 0, hl 1]

/-- C2: when captures `k0` and `k0 + 1` are the first two consecutive
pixel-identical captures and this happens before the timeout, the stability
wait returns at that iteration and saves that (current) frame; moreover the
loop never runs more iterations than `timeout` (a stable return happens by
iteration `timeout` and a timed-out loop runs exactly `timeout`
iterations, one second each). -/
theorem claim_C2_wait_until_stable (s : ShotEnv) (fn : String) (timeout k0 : Nat)
    (hg : goodShot s) (hk : k0 < timeout) (hst : stableAt s.frames k0 = true)
    (hpre : ∀ j, j < k0 → stableAt s.frames j = false) :
    take_screenshot s fn timeout =
      [Event.saved fn (s.frames (k0 + 1)),
       Event.printed ("Screenshot saved: " ++ fn)] ∧
    (∀ (fr : Nat → Frame) (t i : Nat),
      waitLoop fr t 0 = ShotResult.stable i → i ≤ t) ∧
    (∀ (fr : Nat → Frame) (t j : Nat),
      waitLoop fr t 0 = ShotResult.timedOut j → j = t) := by
  refine ⟨take_screenshot_stable_eq s fn timeout k0 hg hk hst hpre, ?_, ?_⟩
  · intro fr t i h
    have := waitLoop_stable_le fr t 0 i h
    omega
  · intro fr t j h
    have := waitLoop_timedOut_eq fr t 0 j h
    omega

theorem claim_C2_witness :
    take_screenshot cShot "x.png" 30 =
      [Event.saved "x.png" [], Event.printed "Screenshot saved: x.png"] :=
  (claim_C2_wait_until_stable cShot "x.png" 30 0 ⟨rfl, rfl, rfl⟩ (by decide)
    (by decide) (fun j hj => absurd hj (by omega))).1

def cShotBusy : ShotEnv := ⟨true, false, false, fun n => [n]⟩

/-- C6: if no two consecutive captures are ever pixel-identical before the
timeout, `take_screenshot` still saves the last captured frame
(best-effort, with the timeout message) and returns normally; and a record
walk with a live window always completes regardless of how its screenshot
calls behave — a timeout is not an error and does not stop the batch. -/
theorem claim_C6_timeout_best_effort (s : ShotEnv) (fn : String) (timeout : Nat)
    (hg : goodShot s) (ht : 0 < timeout)
    (hnone : ∀ j, j < timeout → stableAt s.frames j = false) :
    take_screenshot s fn timeout =
      [Event.saved fn (s.frames timeout),
       Event.printed ("Screenshot saved (timeout reached): " ++ fn)] ∧
    (∀ (e : Env) (f : String) (rp : Bool),
      e.focusWindowPresent = true → (∀ n, e.livenessCheck n = true) →
      (process_prn_file e f rp).2 = Outcome.done true) :=
  ⟨take_screenshot_timeout_eq s fn timeout hg ht hnone,
   fun e f rp hf hl => process_done_of_live e f rp hf hl⟩

theorem claim_C6_witness :
    take_screenshot cShotBusy "y.png" 30 =
      [Event.saved "y.png" [30],
       Event.printed "Screenshot saved (timeout reached): y.png"] :=
  (claim_C6_timeout_best_effort cShotBusy "y.png" 30 ⟨rfl, rfl, rfl⟩ (by decide)
    (fun j hj => by
      simp [cShotBusy, stableAt, ImageChops_difference, getbbox_isNone,
        Nat.max_def, Nat.min_def])).1

def cShotNoWin : ShotEnv := ⟨false, false, false, fun _ => []⟩

/-- C9: `take_screenshot` never propagates an exception: every outcome of
its body — including every raised exception — is mapped by its handlers to
a normal return; when the window is absent it returns only the printed
diagnostic and saves no file; and a walk with a live window reaches its
normal end whatever the screenshot environments do, so a failed screenshot
never aborts the keystroke walk. -/
theorem claim_C9_screenshot_never_raises (s : ShotEnv) (fn : String) (t : Nat) :
    ((∃ evs, takeScreenshotBody s fn t = Except.ok evs ∧
       take_screenshot s fn t = evs) ∨
     (∃ e msg, takeScreenshotBody s fn t = Except.error e ∧
       take_screenshot s fn t = [Event.printed msg])) ∧
    (s.windowPresent = false →
      take_screenshot s fn t =
        [Event.printed "Window with title 'DOSBox' not found. Ensure the CFA window is open."] ∧
      savedNames (take_screenshot s fn t) = []) ∧
    (∀ (e : Env) (f : String) (rp : Bool),
      e.focusWindowPresent = true → (∀ n, e.livenessCheck n = true) →
      (process_prn_file e f rp).2 = Outcome.done true) := by
  refine ⟨take_screenshot_cases s fn t, ?_, ?_⟩
  · intro hw
    have h := take_screenshot_noWindow s fn t hw
    exact ⟨h, by rw [h]; rfl⟩
  · intro e f rp hf hl
    exact process_done_of_live e f rp hf hl

theorem claim_C9_witness :
    take_screenshot cShotNoWin "z.png" 30 =
      [Event.printed "Window with title 'DOSBox' not found. Ensure the CFA window is open."] :=
  ((claim_C9_screenshot_never_raises cShotNoWin "z.png" 30).2.1 rfl).1

@[simp] theorem savedNames_nil : savedNames [] = [] := rfl

@[simp] theorem savedNames_append (a b : List Event) :
    savedNames (a ++ b) = savedNames a ++ savedNames b := by
  simp [savedNames]

@[simp] theorem savedNames_cons_launch (l : List Event) :
    savedNames (Event.launch :: l) = savedNames l := rfl

@[simp] theorem savedNames_cons_sleep (n : Nat) (l : List Event) :
    savedNames (Event.sleepMs n :: l) = savedNames l := rfl

@[simp] theorem savedNames_cons_key (k : String) (d : Nat) (l : List Event) :
    savedNames (Event.key k d :: l) = savedNames l := rfl

@[simp] theorem savedNames_cons_printed (m : String) (l : List Event) :
    savedNames (Event.printed m :: l) = savedNames l := rfl

@[simp] theorem savedNames_cons_hotkey (a b : String) (l : List Event) :
    savedNames (Event.hotkey a b :: l) = savedNames l := rfl

@[simp] theorem savedNames_cons_mkdir (p : String) (l : List Event) :
    savedNames (Event.mkdir p :: l) = savedNames l := rfl

@[simp] theorem savedNames_cons_saved (fn : String) (fr : Frame) (l : List Event) :
    savedNames (Event.saved fn fr :: l) = fn :: savedNames l := rfl

@[simp] theorem savedNames_send_keys (ks : List String) (i : Nat) :
    savedNames (send_keys ks i) = [] := by
  induction ks with
  | nil => rfl
  | cons k rest ih => simp [send_keys, List.flatMap_cons] at ih ⊢; exact ih

@[simp] theorem savedNames_write (s : String) (i : Nat) :
    savedNames (pyautogui_write s i) = [] := by
  rw [pyautogui_write]
  induction s.data with
  | nil => rfl
  | cons c rest ih => simp [List.flatMap_cons] at ih ⊢; exact ih

@[simp] theorem savedNames_press (k : String) :
    savedNames (pyautogui_press k) = [] := rfl

theorem process_savedNames (e : Env) (f : String) (rp : Bool) (hg : goodEnv e) :
    savedNames (process_prn_file e f rp).1 = recordArtifacts f rp := by
  obtain ⟨hf, hl, hs⟩ := hg
  have t30 : (0 : Nat) < 30 := by omega
  have h0 := savedNames_take_screenshot_good (e.shotEnv 0) (artifactName "01" f "LP3") 30 (hs 0) t30
  have h1 := savedNames_take_screenshot_good (e.shotEnv 1) (artifactName "02" f "LP3_GRAPH") 30 (hs 1) t30
  have h2 := savedNames_take_screenshot_good (e.shotEnv 2) (artifactName "03" f "WAKEBY") 30 (hs 2) t30
  have h3 := savedNames_take_screenshot_good (e.shotEnv 3) (artifactName "04" f "WAKEBY_GRAPH") 30 (hs 3) t30
  have h4 := savedNames_take_screenshot_good (e.shotEnv 4) (artifactName "05" f "GEV") 30 (hs 4) t30
  have h5 := savedNames_take_screenshot_good (e.shotEnv 5) (artifactName "06" f "GEV_GRAPH") 30 (hs 5) t30
  cases rp <;>
    simp [process_prn_file, walkTail, hf, hl 0, hl 1, mountSegment, driveSegment,
      menuEntrySegment, fileEntrySegment, h0, h1, h2, h3, h4, h5, recordArtifacts]

/-- The per-record summary (file name, flag passed in, artifact names) of a
fully successful batch. -/
def canonicalRuns : List String → Bool → List (String × Bool × List String)
  | [], _ => []
  | f :: rest, rp => (f, rp, recordArtifacts f rp) :: canonicalRuns rest true

theorem launch_mem_process (e : Env) (f : String) (rp : Bool) :
    Event.launch ∈ (process_prn_file e f rp).1 := by
  rw [process_prn_file]
  split
  · simp
  · split
    · simp
    · split <;> simp

theorem runBatch_canonical (env : Nat → Env) (files : List String) (rp : Bool)
    (idx : Nat) (hg : ∀ i, goodEnv (env i)) :
    (runBatchAux env files rp idx).map
      (fun r => (r.file, r.flagIn, savedNames r.events)) = canonicalRuns files rp ∧
    ∀ r ∈ runBatchAux env files rp idx,
      r.outcome = Outcome.done true ∧ Event.launch ∈ r.events := by
  induction files generalizing rp idx with
  | nil => exact ⟨rfl, by intro r hr; cases hr⟩
  | cons f rest ih =>
    rcases hp : process_prn_file (env idx) f rp with ⟨evs, out⟩
    have hdone := process_done_of_live (env idx) f rp (hg idx).1 (hg idx).2.1
    rw [hp] at hdone
    simp only at hdone
    subst hdone
    have hsn : savedNames evs = recordArtifacts f rp := by
      have := process_savedNames (env idx) f rp (hg idx)
      rw [hp] at this
      exact this
    have hl : Event.launch ∈ evs := by
      have := launch_mem_process (env idx) f rp
      rw [hp] at this
      exact this
    obtain ⟨ih1, ih2⟩ := ih true (idx + 1)
    constructor
    · simp only [runBatchAux, hp, List.map_cons, canonicalRuns]
      rw [hsn, ih1]
    · intro r hr
      simp only [runBatchAux, hp, List.mem_cons] at hr
      rcases hr with rfl | hr
      · exact ⟨rfl, hl⟩
      · exact ih2 r hr

theorem savedNames_recordTrace (r : RecordRun) :
    savedNames (recordTrace r) = savedNames r.events := by
  cases hr : r.outcome <;> simp [recordTrace, hr]

theorem batchTrace_cons (r : RecordRun) (rest : List RecordRun) :
    batchTrace (r :: rest) = recordTrace r ++ batchTrace rest := by
  rw [batchTrace, batchTrace, List.flatMap_cons]

theorem savedNames_batchTrace (runs : List RecordRun) :
    savedNames (batchTrace runs) = (runs.map (fun r => savedNames r.events)).flatten := by
  induction runs with
  | nil => rfl
  | cons r rest ih =>
    rw [batchTrace_cons, savedNames_append, savedNames_recordTrace, ih]
    simp

theorem canonicalRuns_flatten (files : List String) (rp : Bool) :
    ((canonicalRuns files rp).map (fun c => c.2.2)).flatten = batchArtifacts files rp := by
  induction files generalizing rp with
  | nil => rfl
  | cons f rest ih => simp [canonicalRuns, batchArtifacts, ih]

theorem batch_savedNames (env : Nat → Env) (files : List String) (rp : Bool)
    (idx : Nat) (hg : ∀ i, goodEnv (env i)) :
    savedNames (batchTrace (runBatchAux env files rp idx)) = batchArtifacts files rp := by
  rw [savedNames_batchTrace]
  have h := (runBatch_canonical env files rp idx hg).1
  have := congrArg (fun l => (l.map (fun c : String × Bool × List String => c.2.2)).flatten) h
  simp only [List.map_map] at this
  rw [show ((fun c : String × Bool × List String => c.2.2) ∘
      fun r : RecordRun => (r.file, r.flagIn, savedNames r.events)) =
      fun r : RecordRun => savedNames r.events from rfl] at this
  rw [this, canonicalRuns_flatten]

theorem artifactName_data (seq f st : String) :
    (artifactName seq f st).data =
      seq.data ++ '_' :: (f.data ++ '_' :: (st.data ++ ['.', 'p', 'n', 'g'])) := by
  simp [artifactName, String.data_append]

theorem artifactName_inj_record (seq st : String) {f g : String}
    (h : artifactName seq f st = artifactName seq g st) : f = g := by
  have hd := congrArg String.data h
  rw [artifactName_data, artifactName_data] at hd
  have h1 := List.append_cancel_left hd
  have h2 : f.data ++ '_' :: (st.data ++ ['.', 'p', 'n', 'g']) =
      g.data ++ '_' :: (st.data ++ ['.', 'p', 'n', 'g']) := by
    injection h1
  exact String.ext (List.append_cancel_right h2)

theorem artifactName_ne_of_seq (seq1 st1 seq2 st2 : String) (f g : String)
    (hl1 : seq1.data.length = 2) (hl2 : seq2.data.length = 2)
    (hne : seq1.data[1]? ≠ seq2.data[1]?) :
    artifactName seq1 f st1 ≠ artifactName seq2 g st2 := by
  intro h
  apply hne
  have hd := congrArg String.data h
  rw [artifactName_data, artifactName_data] at hd
  have h2 := congrArg (fun l => l[1]?) hd
  simp only at h2
  rw [List.getElem?_append_left (by rw [hl1]; omega),
    List.getElem?_append_left (by rw [hl2]; omega)] at h2
  exact h2

/-- The fixed (sequence, stage) table of the six screenshot call sites. -/
def stagePairs : List (String × String) :=
  [("01", "LP3"), ("02", "LP3_GRAPH"), ("03", "WAKEBY"),
   ("04", "WAKEBY_GRAPH"), ("05", "GEV"), ("06", "GEV_GRAPH")]

/-- The table without the one-time-prompt screenshot. -/
def stagePairsSkip : List (String × String) :=
  [("01", "LP3"), ("03", "WAKEBY"), ("04", "WAKEBY_GRAPH"),
   ("05", "GEV"), ("06", "GEV_GRAPH")]

theorem recordArtifacts_eq_map (f : String) (rp : Bool) :
    recordArtifacts f rp =
      (if rp then stagePairsSkip else stagePairs).map
        (fun p => artifactName p.1 f p.2) := by
  cases rp <;> rfl

theorem artifact_pair_eq {p q : String × String} {f g : String}
    (hp : p ∈ stagePairs) (hq : q ∈ stagePairs)
    (h : artifactName p.1 f p.2 = artifactName q.1 g q.2) : p = q ∧ f = g := by
  fin_cases hp <;> fin_cases hq <;>
    first
      | exact ⟨rfl, artifactName_inj_record _ _ h⟩
      | exact absurd h (artifactName_ne_of_seq _ _ _ _ f g rfl rfl (by decide))

theorem mem_recordArtifacts {n f : String} {rp : Bool}
    (h : n ∈ recordArtifacts f rp) :
    ∃ p ∈ stagePairs, n = artifactName p.1 f p.2 := by
  rw [recordArtifacts_eq_map] at h
  rcases List.mem_map.mp h with ⟨p, hp, rfl⟩
  refine ⟨p, ?_, rfl⟩
  cases rp with
  | true => fin_cases hp <;> decide
  | false => simpa using hp

theorem recordArtifacts_nodup (f : String) (rp : Bool) :
    (recordArtifacts f rp).Nodup := by
  rw [recordArtifacts_eq_map]
  apply List.Nodup.map_on
  · intro p hp q hq h
    have hp' : p ∈ stagePairs := by
      cases rp with
      | true => fin_cases hp <;> decide
      | false => simpa using hp
    have hq' : q ∈ stagePairs := by
      cases rp with
      | true => fin_cases hq <;> decide
      | false => simpa using hq
    exact (artifact_pair_eq hp' hq' h).1
  · cases rp <;> decide

theorem mem_batchArtifacts {n : String} {files : List String} {rp : Bool}
    (h : n ∈ batchArtifacts files rp) :
    ∃ g ∈ files, ∃ p ∈ stagePairs, n = artifactName p.1 g p.2 := by
  induction files generalizing rp with
  | nil => cases h
  | cons f rest ih =>
    rw [batchArtifacts] at h
    rcases List.mem_append.mp h with h1 | h2
    · obtain ⟨p, hp, rfl⟩ := mem_recordArtifacts h1
      exact ⟨f, List.mem_cons_self f rest, p, hp, rfl⟩
    · obtain ⟨g, hg, p, hp, rfl⟩ := ih h2
      exact ⟨g, List.mem_cons_of_mem f hg, p, hp, rfl⟩

theorem batchArtifacts_nodup (files : List String) (hnd : files.Nodup) (rp : Bool) :
    (batchArtifacts files rp).Nodup := by
  induction files generalizing rp with
  | nil => exact List.nodup_nil
  | cons f rest ih =>
    rw [batchArtifacts, List.nodup_append]
    obtain ⟨hnotin, hndrest⟩ := List.nodup_cons.mp hnd
    refine ⟨recordArtifacts_nodup f rp, ih hndrest true, ?_⟩
    intro n hn hn2
    obtain ⟨p, hp, rfl⟩ := mem_recordArtifacts hn
    obtain ⟨g, hg, q, hq, heq⟩ := mem_batchArtifacts hn2
    obtain ⟨-, rfl⟩ := artifact_pair_eq hp hq heq
    exact hnotin hg

@[simp] theorem keyEvents_nil : keyEvents [] = [] := rfl

@[simp] theorem keyEvents_append (a b : List Event) :
    keyEvents (a ++ b) = keyEvents a ++ keyEvents b := by
  simp [keyEvents]

@[simp] theorem keyEvents_cons_launch (l : List Event) :
    keyEvents (Event.launch :: l) = keyEvents l := rfl

@[simp] theorem keyEvents_cons_sleep (n : Nat) (l : List Event) :
    keyEvents (Event.sleepMs n :: l) = keyEvents l := rfl

@[simp] theorem keyEvents_cons_key (k : String) (d : Nat) (l : List Event) :
    keyEvents (Event.key k d :: l) = (k, d) :: keyEvents l := rfl

@[simp] theorem keyEvents_cons_saved (fn : String) (fr : Frame) (l : List Event) :
    keyEvents (Event.saved fn fr :: l) = keyEvents l := rfl

@[simp] theorem keyEvents_cons_printed (m : String) (l : List Event) :
    keyEvents (Event.printed m :: l) = keyEvents l := rfl

@[simp] theorem keyEvents_cons_hotkey (a b : String) (l : List Event) :
    keyEvents (Event.hotkey a b :: l) = keyEvents l := rfl

@[simp] theorem keyEvents_cons_mkdir (p : String) (l : List Event) :
    keyEvents (Event.mkdir p :: l) = keyEvents l := rfl

@[simp] theorem keyEvents_send_keys (ks : List String) (i : Nat) :
    keyEvents (send_keys ks i) = ks.map (fun k => (k, i)) := by
  induction ks with
  | nil => rfl
  | cons k rest ih => simp only [send_keys, List.flatMap_cons, List.map_cons] at ih ⊢; simp [ih]

@[simp] theorem keyEvents_write (s : String) (i : Nat) :
    keyEvents (pyautogui_write s i) = s.data.map (fun c => (String.singleton c, i)) := by
  rw [pyautogui_write]
  induction s.data with
  | nil => rfl
  | cons c rest ih => simp only [List.flatMap_cons, List.map_cons] at ih ⊢; simp [ih]

@[simp] theorem keyEvents_press (k : String) :
    keyEvents (pyautogui_press k) = [(k, 0)] := rfl

@[simp] theorem countKey_append (k : String) (a b : List Event) :
    countKey k (a ++ b) = countKey k a + countKey k b := by
  simp [countKey]

theorem singleton_beq_comma (c : Char) :
    (String.singleton c == ",") = (c == ',') := by
  by_cases h : c = ','
  · subst h; rfl
  · have h1 : (String.singleton c == ",") = false := by
      rw [beq_eq_false_iff_ne]
      intro hc
      apply h
      have := congrArg String.data hc
      simpa [String.singleton] using this
    rw [h1, beq_eq_false_iff_ne.mpr h]

theorem countKey_comma_write (s : String) (i : Nat) :
    countKey "," (pyautogui_write s i) = s.data.count ',' := by
  rw [countKey, keyEvents_write, List.countP_map, List.count]
  apply List.countP_congr
  intro c _
  simp only [Function.comp_apply]
  rw [singleton_beq_comma]

theorem countKey_shot (k : String) (s : ShotEnv) (fn : String) (t : Nat) :
    countKey k (take_screenshot s fn t) = 0 := by
  rw [countKey, keyEvents_take_screenshot]
  rfl

@[simp] theorem countKey_cons_launch (k : String) (l : List Event) :
    countKey k (Event.launch :: l) = countKey k l := rfl

@[simp] theorem countKey_cons_sleep (k : String) (n : Nat) (l : List Event) :
    countKey k (Event.sleepMs n :: l) = countKey k l := rfl

@[simp] theorem countKey_cons_saved (k fn : String) (fr : Frame) (l : List Event) :
    countKey k (Event.saved fn fr :: l) = countKey k l := rfl

@[simp] theorem countKey_cons_printed (k m : String) (l : List Event) :
    countKey k (Event.printed m :: l) = countKey k l := rfl

@[simp] theorem countKey_cons_hotkey (k a b : String) (l : List Event) :
    countKey k (Event.hotkey a b :: l) = countKey k l := rfl

@[simp] theorem countKey_cons_mkdir (k p : String) (l : List Event) :
    countKey k (Event.mkdir p :: l) = countKey k l := rfl

@[simp] theorem countKey_cons_key (k k2 : String) (d : Nat) (l : List Event) :
    countKey k (Event.key k2 d :: l) =
      countKey k l + if k2 == k then 1 else 0 := by
  simp [countKey, keyEvents, List.countP_cons]

theorem countKey_send_keys (k : String) (ks : List String) (i : Nat) :
    countKey k (send_keys ks i) = ks.countP (fun x => x == k) := by
  rw [countKey, keyEvents_send_keys, List.countP_map]
  rfl

theorem countComma_process (e : Env) (f : String) (rp : Bool) (hg : goodEnv e)
    (hf : f.data.count ',' = 0) :
    countKey "," (process_prn_file e f rp).1 = if rp then 0 else 1 := by
  obtain ⟨hfo, hl, hs⟩ := hg
  have hm : countKey "," mountSegment = 0 := by decide
  have hd : countKey "," driveSegment = 0 := by decide
  have hme : countKey "," menuEntrySegment = 0 := by decide
  have hfe : countKey "," (fileEntrySegment f) = 0 := by
    simp [fileEntrySegment, countKey_append, countKey_comma_write, hf]
    decide
  cases rp <;>
    simp [process_prn_file, walkTail, hfo, hl 0, hl 1, countKey_append,
      countKey_shot, countKey_comma_write, countKey_send_keys, hm, hd, hme, hfe] <;>
    decide

theorem count02_recordArtifacts (g : String) (rp : Bool) :
    (recordArtifacts g rp).count (artifactName "02" g "LP3_GRAPH") =
      if rp then 0 else 1 := by
  have h1 : (artifactName "01" g "LP3" == artifactName "02" g "LP3_GRAPH") = false :=
    beq_eq_false_iff_ne.mpr (artifactName_ne_of_seq _ _ _ _ _ _ rfl rfl (by decide))
  have h3 : (artifactName "03" g "WAKEBY" == artifactName "02" g "LP3_GRAPH") = false :=
    beq_eq_false_iff_ne.mpr (artifactName_ne_of_seq _ _ _ _ _ _ rfl rfl (by decide))
  have h4 : (artifactName "04" g "WAKEBY_GRAPH" == artifactName "02" g "LP3_GRAPH") = false :=
    beq_eq_false_iff_ne.mpr (artifactName_ne_of_seq _ _ _ _ _ _ rfl rfl (by decide))
  have h5 : (artifactName "05" g "GEV" == artifactName "02" g "LP3_GRAPH") = false :=
    beq_eq_false_iff_ne.mpr (artifactName_ne_of_seq _ _ _ _ _ _ rfl rfl (by decide))
  have h6 : (artifactName "06" g "GEV_GRAPH" == artifactName "02" g "LP3_GRAPH") = false :=
    beq_eq_false_iff_ne.mpr (artifactName_ne_of_seq _ _ _ _ _ _ rfl rfl (by decide))
  cases rp <;>
    simp [recordArtifacts, List.count_cons, List.count_append, h1, h3, h4, h5, h6]

theorem canonicalRuns_map_flag_true (files : List String) :
    (canonicalRuns files true).map (fun c => c.2.1) =
      List.replicate files.length true := by
  induction files with
  | nil => rfl
  | cons f rest ih => simp [canonicalRuns, ih, List.replicate_succ]

theorem canonicalRuns_map_count02_true (files : List String) :
    (canonicalRuns files true).map
      (fun c => c.2.2.count (artifactName "02" c.1 "LP3_GRAPH")) =
      List.replicate files.length 0 := by
  induction files with
  | nil => rfl
  | cons f rest ih =>
    simp only [canonicalRuns, List.map_cons, ih, List.length_cons, List.replicate_succ]
    rw [count02_recordArtifacts]
    simp

/-- Per-record comma-key emission counts of a successful batch: one comma
(from typing the resolution string `97,97`) when the flag is false, none
when it is true. -/
def commaSeq : List String → Bool → List Nat
  | [], _ => []
  | _ :: rest, rp => (if rp then 0 else 1) :: commaSeq rest true

theorem commaSeq_true_replicate (files : List String) :
    commaSeq files true = List.replicate files.length 0 := by
  induction files with
  | nil => rfl
  | cons f rest ih => simp [commaSeq, ih, List.replicate_succ]

theorem runBatch_map_comma (env : Nat → Env) (files : List String) (rp : Bool)
    (idx : Nat) (hg : ∀ i, goodEnv (env i))
    (hcomma : ∀ g ∈ files, g.data.count ',' = 0) :
    (runBatchAux env files rp idx).map (fun r => countKey "," r.events) =
      commaSeq files rp := by
  induction files generalizing rp idx with
  | nil => rfl
  | cons f rest ih =>
    rcases hp : process_prn_file (env idx) f rp with ⟨evs, out⟩
    have hdone := process_done_of_live (env idx) f rp (hg idx).1 (hg idx).2.1
    rw [hp] at hdone
    simp only at hdone
    subst hdone
    have hcc : countKey "," evs = if rp then 0 else 1 := by
      have := countComma_process (env idx) f rp (hg idx)
        (hcomma f (List.mem_cons_self f rest))
      rw [hp] at this
      exact this
    simp only [runBatchAux, hp, List.map_cons, commaSeq]
    rw [hcc, ih true (idx + 1) (fun g hgm => hcomma g (List.mem_cons_of_mem f hgm))]

theorem runBatch_flags_cons (env : Nat → Env) (f : String) (rest : List String)
    (hg : ∀ i, goodEnv (env i)) :
    (runBatchAux env (f :: rest) false 0).map (fun r => r.flagIn) =
      false :: List.replicate rest.length true := by
  have h := (runBatch_canonical env (f :: rest) false 0 hg).1
  have hflag := congrArg (List.map (fun c : String × Bool × List String => c.2.1)) h
  simp only [List.map_map] at hflag
  rw [show ((fun c : String × Bool × List String => c.2.1) ∘
      fun r : RecordRun => (r.file, r.flagIn, savedNames r.events)) =
      fun r : RecordRun => r.flagIn from rfl] at hflag
  rw [hflag]
  simp [canonicalRuns, canonicalRuns_map_flag_true]

theorem runBatch_count02_cons (env : Nat → Env) (f : String) (rest : List String)
    (hg : ∀ i, goodEnv (env i)) :
    (runBatchAux env (f :: rest) false 0).map
      (fun r => (savedNames r.events).count (artifactName "02" r.file "LP3_GRAPH")) =
      1 :: List.replicate rest.length 0 := by
  have h := (runBatch_canonical env (f :: rest) false 0 hg).1
  have hc := congrArg (List.map (fun c : String × Bool × List String =>
    c.2.2.count (artifactName "02" c.1 "LP3_GRAPH"))) h
  simp only [List.map_map] at hc
  rw [show ((fun c : String × Bool × List String =>
      c.2.2.count (artifactName "02" c.1 "LP3_GRAPH")) ∘
      fun r : RecordRun => (r.file, r.flagIn, savedNames r.events)) =
      fun r : RecordRun =>
        (savedNames r.events).count (artifactName "02" r.file "LP3_GRAPH") from rfl] at hc
  rw [hc]
  simp only [canonicalRuns, List.map_cons, canonicalRuns_map_count02_true]
  rw [count02_recordArtifacts]
  simp

/-- C1: across a whole successful batch of records `f :: rest` started with
the flag false, the `resolution_prompted` flag is false only for the first
record and true for every later one (a single false-to-true transition,
never reverting); the one-time resolution entry (the only typed comma, from
`97,97`) is typed exactly once, on the first record; and the gated
`02_..._LP3_GRAPH.png` capture is saved exactly once, on the first record. -/
theorem claim_C1_resolution_prompt_once (env : Nat → Env) (f : String)
    (rest : List String) (hg : ∀ i, goodEnv (env i))
    (hcomma : ∀ g ∈ f :: rest, g.data.count ',' = 0) :
    (runBatchAux env (f :: rest) false 0).map (fun r => r.flagIn) =
      false :: List.replicate rest.length true ∧
    (runBatchAux env (f :: rest) false 0).map
      (fun r => (savedNames r.events).count (artifactName "02" r.file "LP3_GRAPH")) =
      1 :: List.replicate rest.length 0 ∧
    (runBatchAux env (f :: rest) false 0).map (fun r => countKey "," r.events) =
      1 :: List.replicate rest.length 0 := by
  refine ⟨runBatch_flags_cons env f rest hg, runBatch_count02_cons env f rest hg, ?_⟩
  rw [runBatch_map_comma env (f :: rest) false 0 hg hcomma]
  simp [commaSeq, commaSeq_true_replicate]

theorem cEnv_good : goodEnv cEnv := ⟨rfl, fun _ => rfl, fun _ => ⟨rfl, rfl, rfl⟩⟩

theorem claim_C1_witness :
    (runBatchAux (fun _ => cEnv) ["a.prn", "b.prn"] false 0).map
      (fun r => r.flagIn) = [false, true] ∧
    (runBatchAux (fun _ => cEnv) ["a.prn", "b.prn"] false 0).map
      (fun r => countKey "," r.events) = [1, 0] := by
  have h := claim_C1_resolution_prompt_once (fun _ => cEnv) "a.prn" ["b.prn"]
    (fun _ => cEnv_good) (by decide)
  exact ⟨h.1, h.2.2⟩

/-- C4 counterexample: with the process relaunched for each of the two
records (as the code does), the second record's walk receives the flag
already true — it was not reset for the new launch — and types no
resolution string (no comma key) and saves no `02_..._LP3_GRAPH.png`
artifact: the prompt is not repeated for every record. -/
theorem claim_C4_counterexample :
    (runBatchAux (fun _ => cEnv) ["r1.prn", "r2.prn"] false 0).map
      (fun r => r.flagIn) = [false, true] ∧
    (runBatchAux (fun _ => cEnv) ["r1.prn", "r2.prn"] false 0).map
      (fun r => countKey "," r.events) = [1, 0] ∧
    "02_r2.prn_LP3_GRAPH.png" ∉
      savedNames (batchTrace (runBatchAux (fun _ => cEnv) ["r1.prn", "r2.prn"] false 0)) := by
  refine ⟨by decide, by decide, by decide⟩

/-- C4 amended: the code launches DOSBox inside the per-record function, so
every record's walk relaunches the process; but the flag is carried across
launches (not reset), so the resolution prompt happens only on the first
record. -/
theorem claim_C4_relaunch_without_reset (env : Nat → Env) (f : String)
    (rest : List String) (hg : ∀ i, goodEnv (env i)) :
    (∀ r ∈ runBatchAux env (f :: rest) false 0, Event.launch ∈ r.events) ∧
    (runBatchAux env (f :: rest) false 0).map (fun r => r.flagIn) =
      false :: List.replicate rest.length true ∧
    (runBatchAux env (f :: rest) false 0).map
      (fun r => (savedNames r.events).count (artifactName "02" r.file "LP3_GRAPH")) =
      1 :: List.replicate rest.length 0 :=
  ⟨fun r hr => ((runBatch_canonical env (f :: rest) false 0 hg).2 r hr).2,
   runBatch_flags_cons env f rest hg, runBatch_count02_cons env f rest hg⟩

theorem claim_C4_witness :
    (runBatchAux (fun _ => cEnv) ["w1.prn", "w2.prn"] false 0).map
      (fun r => r.flagIn) = [false, true] :=
  (claim_C4_relaunch_without_reset (fun _ => cEnv) "w1.prn" ["w2.prn"]
    (fun _ => cEnv_good)).2.1

/-- C5 counterexample: over the directory `[site12.prn, site45.prn]` the
batch does NOT produce the `02_site45.prn_LP3_GRAPH.png` artifact for the
second record: site45 yields five artifact names, not six. -/
theorem claim_C5_counterexample :
    "02_site45.prn_LP3_GRAPH.png" ∉
      savedNames (batchTrace (runBatchAux (fun _ => cEnv)
        ["site12.prn", "site45.prn"] false 0)) ∧
    (savedNames (batchTrace (runBatchAux (fun _ => cEnv)
        ["site12.prn", "site45.prn"] false 0))).length = 11 := by
  refine ⟨by decide, by decide⟩

/-- C5 amended: a successful run over `[site12.prn, site45.prn]` produces
the six artifacts for site12, but only five for site45 — the
`02_site45.prn_LP3_GRAPH.png` variant is skipped together with the
resolution prompt, which is not re-issued. -/
theorem claim_C5_site_artifacts (env : Nat → Env) (hg : ∀ i, goodEnv (env i)) :
    savedNames (batchTrace (runBatchAux env ["site12.prn", "site45.prn"] false 0)) =
      ["01_site12.prn_LP3.png", "02_site12.prn_LP3_GRAPH.png",
       "03_site12.prn_WAKEBY.png", "04_site12.prn_WAKEBY_GRAPH.png",
       "05_site12.prn_GEV.png", "06_site12.prn_GEV_GRAPH.png",
       "01_site45.prn_LP3.png", "03_site45.prn_WAKEBY.png",
       "04_site45.prn_WAKEBY_GRAPH.png", "05_site45.prn_GEV.png",
       "06_site45.prn_GEV_GRAPH.png"] := by
  rw [batch_savedNames env _ false 0 hg]
  decide

theorem claim_C5_witness :
    savedNames (batchTrace (runBatchAux (fun _ => cEnv)
      ["site12.prn", "site45.prn"] false 0)) =
      ["01_site12.prn_LP3.png", "02_site12.prn_LP3_GRAPH.png",
       "03_site12.prn_WAKEBY.png", "04_site12.prn_WAKEBY_GRAPH.png",
       "05_site12.prn_GEV.png", "06_site12.prn_GEV_GRAPH.png",
       "01_site45.prn_LP3.png", "03_site45.prn_WAKEBY.png",
       "04_site45.prn_WAKEBY_GRAPH.png", "05_site45.prn_GEV.png",
       "06_site45.prn_GEV_GRAPH.png"] :=
  claim_C5_site_artifacts (fun _ => cEnv) (fun _ => cEnv_good)

/-- C7: under any all-good environment the batch's saved artifact names are
exactly the deterministic `batchArtifacts` function of the discovered file
list (so a re-run over the same input reproduces the same name set, for
any other all-good environment); every artifact name follows the pattern
`{seq}_{record}_{stage}.png` with `(seq, stage)` from the fixed table; and
when the record names are distinct the name list has no duplicates, so no
artifact of one record is overwritten by a later record. -/
theorem claim_C7_artifact_names (env env2 : Nat → Env) (files : List String)
    (hg : ∀ i, goodEnv (env i)) (hg2 : ∀ i, goodEnv (env2 i)) :
    savedNames (batchTrace (runBatchAux env files false 0)) =
      batchArtifacts files false ∧
    savedNames (batchTrace (runBatchAux env2 files false 0)) =
      savedNames (batchTrace (runBatchAux env files false 0)) ∧
    (∀ n ∈ batchArtifacts files false,
      ∃ g ∈ files, ∃ p ∈ stagePairs, n = artifactName p.1 g p.2) ∧
    (files.Nodup → (batchArtifacts files false).Nodup) := by
  refine ⟨batch_savedNames env files false 0 hg, ?_,
    fun n hn => mem_batchArtifacts hn,
    fun h => batchArtifacts_nodup files h false⟩
  rw [batch_savedNames env files false 0 hg, batch_savedNames env2 files false 0 hg2]

theorem claim_C7_witness :
    savedNames (batchTrace (runBatchAux (fun _ => cEnv) ["u1.prn", "u2.prn"] false 0)) =
      batchArtifacts ["u1.prn", "u2.prn"] false ∧
    (batchArtifacts ["u1.prn", "u2.prn"] false).Nodup := by
  have h := claim_C7_artifact_names (fun _ => cEnv) (fun _ => cEnv)
    ["u1.prn", "u2.prn"] (fun _ => cEnv_good) (fun _ => cEnv_good)
  exact ⟨h.1, h.2.2.2 (by decide)⟩

/-- C3: if `check_dosbox_window` reports the window absent at the check
before the mount command, `process_prn_file` exits the process having
emitted no key event at all; if the window vanishes at the check before the
drive switch, the call exits with the printed diagnostic as its very last
event (no keystroke after the failed check); and in either case `main`'s
loop ends with that record — later records are never walked. -/
theorem claim_C3_liveness_failure_halts_batch (e : Env) (f : String) (rp : Bool) :
    (e.focusWindowPresent = true → e.livenessCheck 0 = false →
      process_prn_file e f rp =
        ([Event.launch, Event.sleepMs 2000, Event.sleepMs 500,
          Event.printed "DOSBox window closed. Exiting script."], Outcome.exited) ∧
      keyEvents (process_prn_file e f rp).1 = []) ∧
    (e.focusWindowPresent = true → e.livenessCheck 0 = true →
     e.livenessCheck 1 = false →
      process_prn_file e f rp =
        ([Event.launch, Event.sleepMs 2000, Event.sleepMs 500] ++ mountSegment ++
         [Event.printed "DOSBox window closed. Exiting script."], Outcome.exited)) ∧
    (∀ (env : Nat → Env) (rest : List String),
      (env 0).focusWindowPresent = true → (env 0).livenessCheck 0 = false →
      runBatchAux env (f :: rest) rp 0 =
        [⟨f, rp, [Event.launch, Event.sleepMs 2000, Event.sleepMs 500,
          Event.printed "DOSBox window closed. Exiting script."], Outcome.exited⟩]) := by
  refine ⟨?_, ?_, ?_⟩
  · intro hf hl
    have hp : process_prn_file e f rp =
        ([Event.launch, Event.sleepMs 2000, Event.sleepMs 500,
          Event.printed "DOSBox window closed. Exiting script."], Outcome.exited) := by
      simp [process_prn_file, hf, hl]
    exact ⟨hp, by rw [hp]; rfl⟩
  · intro hf hl0 hl1
    simp [process_prn_file, hf, hl0, hl1]
  · intro env rest hf hl
    have hp : process_prn_file (env 0) f rp =
        ([Event.launch, Event.sleepMs 2000, Event.sleepMs 500,
          Event.printed "DOSBox window closed. Exiting script."], Outcome.exited) := by
      simp [process_prn_file, hf, hl]
    simp [runBatchAux, hp]

def cEnvDead : Env := ⟨true, fun _ => false, fun _ => cShot⟩

theorem claim_C3_witness :
    process_prn_file cEnvDead "a.prn" false =
      ([Event.launch, Event.sleepMs 2000, Event.sleepMs 500,
        Event.printed "DOSBox window closed. Exiting script."], Outcome.exited) :=
  ((claim_C3_liveness_failure_halts_batch cEnvDead "a.prn" false).1 rfl rfl).1

/-- `s` begins with `p` (the artifact path would be inside the configured
directory only if the directory were a proper path component of it). -/
def beginsWith (p s : String) : Prop :=
  s.data.take p.data.length = p.data

instance (p s : String) : Decidable (beginsWith p s) :=
  inferInstanceAs (Decidable (s.data.take p.data.length = p.data))

theorem mem_artifactName_data {c : Char} {seq f st : String}
    (h : c ∈ (artifactName seq f st).data) :
    c ∈ seq.data ∨ c = '_' ∨ c ∈ f.data ∨ c ∈ st.data ∨
      (c = '.' ∨ c = 'p' ∨ c = 'n' ∨ c = 'g') := by
  rw [artifactName_data] at h
  simp only [List.mem_append, List.mem_cons, List.not_mem_nil, or_false] at h
  tauto

theorem stagePairs_no_sep : ∀ p ∈ stagePairs,
    '/' ∉ p.1.data ∧ '/' ∉ p.2.data ∧ '\\' ∉ p.1.data ∧ '\\' ∉ p.2.data := by
  decide

theorem artifactName_char0 {p : String × String} (hp : p ∈ stagePairs)
    (g : String) : (artifactName p.1 g p.2).data[0]? = some '0' := by
  fin_cases hp <;>
    (rw [artifactName_data, List.getElem?_append_left (by decide)]; rfl)

/-- C10: every artifact of a successful batch is saved under a bare
filename — no `/` or `\` separator (given the record names themselves have
none) and in particular not under the configured `screenshot_dir` — while
the startup code creates `screenshot_dir` when absent and emits nothing
when it exists; the directory is used in no artifact path. -/
theorem claim_C10_bare_filenames (env : Nat → Env) (files : List String)
    (hg : ∀ i, goodEnv (env i))
    (hsep : ∀ g ∈ files, '/' ∉ g.data ∧ '\\' ∉ g.data) :
    (∀ n ∈ savedNames (batchTrace (runBatchAux env files false 0)),
      '/' ∉ n.data ∧ '\\' ∉ n.data ∧ ¬ beginsWith screenshot_dir n) ∧
    startup true false = Except.ok [Event.mkdir screenshot_dir] ∧
    startup true true = Except.ok [] := by
  refine ⟨?_, rfl, rfl⟩
  intro n hn
  rw [batch_savedNames env files false 0 hg] at hn
  obtain ⟨g, hgf, p, hp, rfl⟩ := mem_batchArtifacts hn
  obtain ⟨hg1, hg2⟩ := hsep g hgf
  refine ⟨?_, ?_, ?_⟩
  · intro h
    rcases mem_artifactName_data h with h | h | h | h | h
    · exact (stagePairs_no_sep p hp).1 h
    · exact absurd h (by decide)
    · exact hg1 h
    · exact (stagePairs_no_sep p hp).2.1 h
    · exact absurd h (by decide)
  · intro h
    rcases mem_artifactName_data h with h | h | h | h | h
    · exact (stagePairs_no_sep p hp).2.2.1 h
    · exact absurd h (by decide)
    · exact hg2 h
    · exact (stagePairs_no_sep p hp).2.2.2 h
    · exact absurd h (by decide)
  · intro hb
    unfold beginsWith at hb
    have h0 : (artifactName p.1 g p.2).data[0]? = some 'C' := by
      have h1 := congrArg (fun l => l[0]?) hb
      simp only at h1
      rw [List.getElem?_take_of_lt (by decide)] at h1
      rw [h1]
      rfl
    rw [artifactName_char0 hp g] at h0
    exact absurd h0 (by decide)

theorem claim_C10_witness :
    '/' ∉ "01_a.prn_LP3.png".data ∧ '\\' ∉ "01_a.prn_LP3.png".data ∧
    ¬ beginsWith screenshot_dir "01_a.prn_LP3.png" := by
  have h := claim_C10_bare_filenames (fun _ => cEnv) ["a.prn"]
    (fun _ => cEnv_good) (by decide)
  exact h.1 "01_a.prn_LP3.png" (by decide)

/-- C8 counterexample: the claim that no two key/character emissions ever
occur with zero delay between them fails on a concrete record: the walk of
`ab.prn` contains two immediately adjacent key events with a zero
inter-symbol delay (e.g. `pyautogui.write(prn_file)` types the record name
with the library-default interval 0). -/
theorem claim_C8_counterexample :
    hasZeroGapKeys (process_prn_file cEnv "ab.prn" false).1 = true := by
  decide

/-- The key names that the walk emits with a zero after-delay besides the
characters of the record name: the drive letter and resolution text typed
with `write`'s default interval, and the bare `press` calls. -/
def zeroDelayKeys : List String := ["C", ":", "9", "7", ",", "enter", "1", "6"]

/-- The inter-symbol delay discipline the code actually follows: every key
is emitted with one of the delays 0, 0.01, 0.1 or 1 seconds, and a zero
delay occurs only for the characters of the record name and for the keys in
`zeroDelayKeys`. -/
def keyDelayOk (prn : String) : Event → Prop
  | Event.key k d =>
    (d = 0 ∨ d = 10 ∨ d = 100 ∨ d = 1000) ∧
    (d = 0 → (∃ c ∈ prn.data, k = String.singleton c) ∨ k ∈ zeroDelayKeys)
  | _ => True

theorem keyDelayOk_send_keys (prn : String) (ks : List String) (i : Nat)
    (hi : i = 100 ∨ i = 1000) : ∀ ev ∈ send_keys ks i, keyDelayOk prn ev := by
  intro ev hev
  rw [send_keys] at hev
  simp only [List.mem_flatMap, List.mem_singleton] at hev
  obtain ⟨k, _, rfl⟩ := hev
  rcases hi with rfl | rfl
  · exact ⟨Or.inr (Or.inr (Or.inl rfl)), fun h => absurd h (by decide)⟩
  · exact ⟨Or.inr (Or.inr (Or.inr rfl)), fun h => absurd h (by decide)⟩

theorem keyDelayOk_write (prn s : String) (i : Nat)
    (hok : ∀ c ∈ s.data, keyDelayOk prn (Event.key (String.singleton c) i)) :
    ∀ ev ∈ pyautogui_write s i, keyDelayOk prn ev := by
  intro ev hev
  rw [pyautogui_write] at hev
  simp only [List.mem_flatMap, List.mem_singleton] at hev
  obtain ⟨c, hc, rfl⟩ := hev
  exact hok c hc

theorem keyDelayOk_write10 (prn s : String) :
    ∀ ev ∈ pyautogui_write s 10, keyDelayOk prn ev :=
  keyDelayOk_write prn s 10
    (fun _ _ => ⟨Or.inr (Or.inl rfl), fun h => absurd h (by decide)⟩)

theorem keyDelayOk_write_prn (prn : String) :
    ∀ ev ∈ pyautogui_write prn 0, keyDelayOk prn ev :=
  keyDelayOk_write prn prn 0
    (fun c hc => ⟨Or.inl rfl, fun _ => Or.inl ⟨c, hc, rfl⟩⟩)

theorem keyDelayOk_write0 (prn s : String)
    (hs : ∀ c ∈ s.data, String.singleton c ∈ zeroDelayKeys) :
    ∀ ev ∈ pyautogui_write s 0, keyDelayOk prn ev :=
  keyDelayOk_write prn s 0
    (fun c hc => ⟨Or.inl rfl, fun _ => Or.inr (hs c hc)⟩)

theorem keyDelayOk_press (prn k : String) (hk : k ∈ zeroDelayKeys) :
    ∀ ev ∈ pyautogui_press k, keyDelayOk prn ev := by
  intro ev hev
  simp only [pyautogui_press, List.mem_singleton] at hev
  subst hev
  exact ⟨Or.inl rfl, fun _ => Or.inr hk⟩

theorem keyDelayOk_shot (prn : String) (s : ShotEnv) (fn : String) (t : Nat) :
    ∀ ev ∈ take_screenshot s fn t, keyDelayOk prn ev := by
  intro ev hev
  rcases take_screenshot_cases s fn t with ⟨evs, hb, he⟩ | ⟨e2, msg, hb, he⟩
  · obtain ⟨fr, msg, rfl⟩ := takeScreenshotBody_shape s fn t evs hb
    rw [he] at hev
    simp only [List.mem_cons, List.not_mem_nil, or_false] at hev
    rcases hev with rfl | rfl <;> trivial
  · rw [he] at hev
    simp only [List.mem_singleton] at hev
    subst hev
    trivial

theorem keyDelayOk_sleep (prn : String) (n : Nat) :
    ∀ ev ∈ [Event.sleepMs n], keyDelayOk prn ev := by
  intro ev hev
  simp only [List.mem_singleton] at hev
  subst hev
  trivial

theorem keyDelayOk_mount (prn : String) :
    ∀ ev ∈ mountSegment, keyDelayOk prn ev := by
  rw [mountSegment]
  simp only [List.forall_mem_append]
  exact ⟨⟨keyDelayOk_write10 prn _, keyDelayOk_sleep prn 500⟩,
    keyDelayOk_press prn "enter" (by decide)⟩

theorem keyDelayOk_drive (prn : String) :
    ∀ ev ∈ driveSegment, keyDelayOk prn ev := by
  rw [driveSegment]
  simp only [List.forall_mem_append]
  exact ⟨⟨⟨keyDelayOk_write10 prn _, keyDelayOk_sleep prn 500⟩,
    keyDelayOk_press prn "enter" (by decide)⟩, keyDelayOk_write10 prn _⟩

theorem keyDelayOk_menuEntry (prn : String) :
    ∀ ev ∈ menuEntrySegment, keyDelayOk prn ev := by
  rw [menuEntrySegment]
  simp only [List.forall_mem_append]
  exact ⟨⟨⟨⟨⟨⟨keyDelayOk_send_keys prn _ 100 (Or.inl rfl),
    keyDelayOk_press prn "1" (by decide)⟩,
    keyDelayOk_press prn "enter" (by decide)⟩,
    keyDelayOk_sleep prn 500⟩,
    keyDelayOk_press prn "6" (by decide)⟩,
    keyDelayOk_press prn "enter" (by decide)⟩,
    keyDelayOk_sleep prn 500⟩

theorem keyDelayOk_fileEntry (prn : String) :
    ∀ ev ∈ fileEntrySegment prn, keyDelayOk prn ev := by
  rw [fileEntrySegment]
  simp only [List.forall_mem_append]
  exact ⟨⟨⟨⟨⟨⟨⟨keyDelayOk_write_prn prn,
    keyDelayOk_send_keys prn _ 100 (Or.inl rfl)⟩,
    keyDelayOk_write0 prn "C:" (by decide)⟩,
    keyDelayOk_send_keys prn _ 100 (Or.inl rfl)⟩,
    keyDelayOk_sleep prn 500⟩,
    keyDelayOk_send_keys prn _ 100 (Or.inl rfl)⟩,
    keyDelayOk_send_keys prn _ 100 (Or.inl rfl)⟩,
    keyDelayOk_send_keys prn _ 100 (Or.inl rfl)⟩

theorem keyDelayOk_hotkey (prn a b : String) :
    ∀ ev ∈ [Event.hotkey a b], keyDelayOk prn ev := by
  intro ev hev
  simp only [List.mem_singleton] at hev
  subst hev
  trivial

theorem keyDelayOk_walkTail (e : Env) (prn : String) (rp : Bool) :
    ∀ ev ∈ walkTail e prn rp, keyDelayOk prn ev := by
  rw [walkTail]
  simp only [List.forall_mem_append]
  refine ⟨⟨⟨⟨⟨⟨⟨⟨⟨⟨⟨⟨⟨⟨⟨keyDelayOk_send_keys prn _ 100 (Or.inl rfl), ?_⟩,
    keyDelayOk_send_keys prn _ 100 (Or.inl rfl)⟩,
    keyDelayOk_shot prn _ _ _⟩,
    keyDelayOk_send_keys prn _ 100 (Or.inl rfl)⟩,
    keyDelayOk_shot prn _ _ _⟩,
    keyDelayOk_send_keys prn _ 1000 (Or.inr rfl)⟩,
    keyDelayOk_send_keys prn _ 100 (Or.inl rfl)⟩,
    keyDelayOk_send_keys prn _ 100 (Or.inl rfl)⟩,
    keyDelayOk_shot prn _ _ _⟩,
    keyDelayOk_send_keys prn _ 100 (Or.inl rfl)⟩,
    keyDelayOk_shot prn _ _ _⟩,
    keyDelayOk_send_keys prn _ 1000 (Or.inr rfl)⟩,
    keyDelayOk_send_keys prn _ 100 (Or.inl rfl)⟩,
    keyDelayOk_send_keys prn _ 100 (Or.inl rfl)⟩,
    keyDelayOk_hotkey prn "alt" "f4"⟩
  split
  · simp only [List.forall_mem_append]
    exact ⟨⟨⟨⟨keyDelayOk_write0 prn "97,97" (by decide),
      keyDelayOk_send_keys prn _ 100 (Or.inl rfl)⟩,
      keyDelayOk_shot prn _ _ _⟩,
      keyDelayOk_send_keys prn _ 1000 (Or.inr rfl)⟩,
      keyDelayOk_send_keys prn _ 100 (Or.inl rfl)⟩
  · intro ev hev
    cases hev

/-- C8 amended: every key or character emission of a record's walk carries
one of the fixed inter-symbol delays 0 s, 0.01 s, 0.1 s or 1 s, and the
zero-delay emissions are exactly the record-name, drive-letter and
resolution text typed with `pyautogui.write`'s default interval plus the
bare `pyautogui.press` calls — not every emission has a positive delay. -/
theorem claim_C8_interkey_delays (e : Env) (f : String) (rp : Bool) :
    ∀ ev ∈ (process_prn_file e f rp).1, keyDelayOk f ev := by
  rw [process_prn_file]
  split
  · intro ev hev
    simp only [List.mem_cons, List.not_mem_nil, or_false] at hev
    rcases hev with rfl | rfl <;> trivial
  · split
    · intro ev hev
      simp only [List.mem_cons, List.not_mem_nil, or_false] at hev
      rcases hev with rfl | rfl | rfl | rfl <;> trivial
    · split
      · intro ev hev
        simp only [List.mem_append, List.mem_cons, List.not_mem_nil, or_false] at hev
        rcases hev with ((rfl | rfl | rfl) | hm) | rfl
        · trivial
        · trivial
        · trivial
        · exact keyDelayOk_mount f ev hm
        · trivial
      · simp only [List.cons_append, List.nil_append, List.forall_mem_cons,
          List.forall_mem_append]
        refine ⟨trivial, trivial, trivial,
          ⟨⟨⟨⟨keyDelayOk_mount f, keyDelayOk_drive f⟩, keyDelayOk_menuEntry f⟩,
            keyDelayOk_fileEntry f⟩, keyDelayOk_shot f _ _ _⟩,
          keyDelayOk_walkTail e f rp⟩

theorem claim_C8_witness : keyDelayOk "ab.prn" (Event.key "a" 0) :=
  claim_C8_interkey_delays cEnv "ab.prn" false (Event.key "a" 0) (by decide)
